import Mathlib

/- Shallow embedding of the gen-ai-chess-app server (src/index.js).
   The chess.js Rules Engine and the OpenAI transport are external
   collaborators; they are modelled as parameters (an abstract `Engine`
   structure and oracle/parse functions), faithful to their interface
   contracts: a rejected move leaves the engine state untouched and is
   reported as `none` (the null-returning chess.js API the source
   assumes via `if (!moveResult)` / `if (validMove)`). -/

namespace ChessApp

/- A verbose move record as produced by chess.js history({verbose:true})
   and moves({verbose:true}): we keep the fields the server reads
   (color, from, to).  `from` is a Lean keyword, hence fromSq/toSq. -/
structure VerboseMove where
  color : String
  fromSq : String
  toSq : String
deriving DecidableEq

/- A board cell as produced by chess.js board(): piece type letter and
   color letter (e.g. type "p", color "b"). -/
structure Piece where
  ptype : String
  pcolor : String

/- The external Rules Engine boundary (chess.js), exactly the operations
   src/index.js consumes.  `move` takes from- and to-squares (the source
   always passes promotion q) and returns the advanced state on success
   or `none` on rejection; a rejected move does not change the state. -/
structure Engine (σ : Type) where
  turn : σ → String
  board : σ → List (List (Option Piece))
  fen : σ → String
  history : σ → List VerboseMove
  moves : σ → List VerboseMove
  move : σ → String → String → Option σ

/- src/index.js lines 61-65 (coordsToAlgebraic).  The JS function has no
   range check.  Arguments arrive from req.body and may be absent
   (JS undefined), modelled as `none`: then the file char is
   String.fromCharCode(NaN) = the NUL character and the rank is the
   string "NaN" (8 - undefined).  String.fromCharCode applies ToUint16,
   i.e. reduction mod 65536. -/
def coordsToAlgebraic (row col : Option Int) : String :=
  let file : String :=
    match col with
    | some c => String.singleton (Char.ofNat ((97 + c) % 65536).toNat)
    | none => String.singleton (Char.ofNat 0)
  let rank : String :=
    match row with
    | some r => toString (8 - r)
    | none => "NaN"
  file ++ rank

/- A valid algebraic square per the Square data model of the design:
   file letter a-h followed by rank digit 1-8. -/
def isValidSquare (sq : String) : Bool :=
  match sq.data with
  | [f, r] => (Char.ofNat 97 ≤ f && f ≤ Char.ofNat 104) && (Char.ofNat 49 ≤ r && r ≤ Char.ofNat 56)
  | _ => false

/- src/index.js lines 33-36: the unicode glyph map.  Engine cells only
   ever carry these twelve keys. -/
def unicodeMap (key : String) : String :=
  if key = "pb" then "♟" else if key = "rb" then "♜" else if key = "nb" then "♞"
  else if key = "bb" then "♝" else if key = "qb" then "♛" else if key = "kb" then "♚"
  else if key = "pw" then "♙" else if key = "rw" then "♖" else if key = "nw" then "♘"
  else if key = "bw" then "♗" else if key = "qw" then "♕" else if key = "kw" then "♔"
  else ""

/- src/index.js lines 32-55 (getUnicodeBoard): each cell becomes a glyph
   or "." for empty. -/
def getUnicodeBoard {σ : Type} (e : Engine σ) (s : σ) : List (List String) :=
  (e.board s).map fun row => row.map fun cell =>
    match cell with
    | none => "."
    | some p => unicodeMap (p.ptype ++ p.pcolor)

/- src/index.js lines 183-189: the recent-moves list of the prompt.
   JS computes sliceStart = Math.max(0, allMoves.length - 8); Nat
   subtraction implements the same clamping.  The printed move number is
   allMoves.length - 8 + index + 1 evaluated over the integers, which
   goes negative when fewer than 8 moves were played. -/
def recentMovesLines (allMoves : List VerboseMove) : List String :=
  let sliceStart : Nat := allMoves.length - 8
  ((allMoves.drop sliceStart).enum).map fun ie =>
    let moveNum : Int := (allMoves.length : Int) - 8 + (ie.1 : Int) + 1
    let colorName : String := if ie.2.color = "w" then "White" else "Black"
    toString moveNum ++ ". " ++ colorName ++ " moved " ++ ie.2.fromSq ++ " -> " ++ ie.2.toSq

/- src/index.js lines 192-197: the textual board rendering. -/
def visualBoardStr (board : List (List String)) : String :=
  let ranks : List String := ["8", "7", "6", "5", "4", "3", "2", "1"]
  "Current Board (Top=Black, Bottom=White):\n"
    ++ String.join ((ranks.zip board).map fun rc =>
        rc.1 ++ " | " ++ String.intercalate "  " rc.2 ++ "\n")
    ++ "    a  b  c  d  e  f  g  h\n"

/- src/index.js lines 177-223 (buildOpenAIPrompt): the base prompt built
   at loop entry.  The template literal is transcribed byte for byte. -/
def buildOpenAIPrompt {σ : Type} (e : Engine σ) (s : σ) : String :=
  let fen := e.fen s
  let board := getUnicodeBoard e s
  let allMoves := e.history s
  let recentMoves := recentMovesLines allMoves
  let joined := String.intercalate "\n" recentMoves
  "\nFEN: " ++ fen ++ "\n\nMoves so far (last 8 moves):\n"
    ++ (if joined = "" then "No moves yet." else joined)
    ++ "\n\n" ++ visualBoardStr board
    ++ "\n\nIt is currently Black\x27s turn. \nYou are an advanced chess AI that MUST provide a strictly legal move for Black in JSON only. \nYour JSON format must be EXACTLY:\n\x7b\n  \"from\":\"<square>\",\n  \"to\":\"<square>\"\n\x7d\nNo extra fields, no extra text. If no legal moves exist, output:\n\x7b\n  \"from\":\"none\",\n  \"to\":\"none\"\n\x7d\nAlways avoid illegal or repeated moves. Be as challenging as possible.\n"

/- The three corrective notes of the elicitation loop
   (src/index.js lines 130, 151, 155). -/
def invalidNote : String :=
  "\nNOTE: Your previous response was invalid or empty. Please return valid JSON.\n"

def parseNote : String :=
  "\nNOTE: Could not parse your JSON. Please output strictly valid JSON.\n"

def illegalNote (f t : String) : String :=
  "\nNOTE: Move \x7bfrom:\"" ++ f ++ "\",to:\"" ++ t ++ "\"\x7d is illegal or invalid. Please try again.\n"

/- The error strings of the HTTP handlers (src/index.js lines 87, 92,
   100, 119, 163).  An `Option String` error of `some msg` models the
   HTTP 400 response with that message. -/
def missingMsg : String := "Missing from/to in request body."

def notWhiteTurnMsg : String := "It is not White’s turn."

def notAiTurnMsg : String := "It is White’s turn, not AI’s turn."

def illegalMoveMsg : String := "Illegal move."

def exhaustedMsg : String := "AI failed to provide a valid move after multiple attempts."

/- The JS String.prototype.trim applied at src/index.js line 253:
   removes leading and trailing whitespace (the exact whitespace class
   is approximated by Char.isWhitespace; it contains no braces either
   way). -/
def jsTrim (s : String) : String :=
  String.mk (((s.data.dropWhile fun c => c.isWhitespace).reverse.dropWhile
    fun c => c.isWhitespace).reverse)

/- src/index.js lines 257-261: the lazy regex match of callOpenAiForMove.
   takeThroughClose collects characters up to and including the first
   closing brace; firstBraceMatch starts at the first opening brace. -/
def takeThroughClose : List Char → Option (List Char)
  | [] => none
  | c :: rest =>
    if c = '\x7d' then some [c]
    else (takeThroughClose rest).map fun l => c :: l

def firstBraceMatch : List Char → Option (List Char)
  | [] => none
  | c :: rest =>
    if c = '\x7b' then (takeThroughClose rest).map fun l => c :: l
    else firstBraceMatch rest

def extractJsonSubstring (s : String) : Option String :=
  (firstBraceMatch s.data).map String.mk

/- src/index.js lines 229-269 (callOpenAiForMove).  The transport result
   is `none` when the try block throws anywhere (network failure, bad
   payload shape); then the catch swallows the error and the function
   returns null.  On success the raw text is trimmed and scanned for the
   first lazy JSON-object substring. -/
def callOpenAiForMove (transportResult : Option String) : Option String :=
  match transportResult with
  | none => none
  | some raw => extractJsonSubstring (jsTrim raw)

/- Result of the elicitation while-loop of src/index.js lines 122-158:
   final engine state, final prompt variable, whether validMove was set,
   number of oracle calls made, and the list of prompts sent to the
   oracle (observable instrumentation: the source logs each prompt at
   line 230). -/
structure LoopResult (σ : Type) where
  finalState : σ
  finalPrompt : String
  success : Bool
  attempts : Nat
  log : List String

/- src/index.js lines 122-158: the retry loop, with the remaining-
   retries counter as the recursion fuel.  `oracle` is the external
   completion call: call index and prompt to response (or null);
   `parse` is JSON.parse at the loop boundary: `none` when it throws,
   otherwise the from/to string fields of the parsed object.  On a
   found-but-rejected move (chess.move null despite the pair being in
   the legal list) the source appends no note and just decrements. -/
def aiMoveLoop {σ : Type} (e : Engine σ) (parse : String → Option (String × String))
    (oracle : Nat → String → Option String) :
    Nat → σ → String → Nat → List String → LoopResult σ
  | 0, s, prompt, calls, log => ⟨s, prompt, false, calls, log⟩
  | Nat.succ n, s, prompt, calls, log =>
    match oracle calls prompt with
    | none => aiMoveLoop e parse oracle n s (prompt ++ invalidNote) (calls + 1) (log ++ [prompt])
    | some resp =>
      match parse resp with
      | none => aiMoveLoop e parse oracle n s (prompt ++ parseNote) (calls + 1) (log ++ [prompt])
      | some (f, t) =>
        if (e.moves s).any (fun m => m.fromSq == f && m.toSq == t) then
          match e.move s f t with
          | some s2 => ⟨s2, prompt, true, calls + 1, log ++ [prompt]⟩
          | none => aiMoveLoop e parse oracle n s prompt (calls + 1) (log ++ [prompt])
        else
          aiMoveLoop e parse oracle n s (prompt ++ illegalNote f t) (calls + 1) (log ++ [prompt])

/- Outcome of one POST /api/ai-move invocation: final game state, the
   error of the 400 response (none on success), oracle calls made and
   the prompts sent. -/
structure AiMoveOutcome (σ : Type) where
  state : σ
  error : Option String
  attempts : Nat
  oracleLog : List String

/- src/index.js lines 117-171 (the /api/ai-move handler): turn gate,
   retries = 3, the loop, and the exhaustion response. -/
def aiMoveHandler {σ : Type} (e : Engine σ) (parse : String → Option (String × String))
    (oracle : Nat → String → Option String) (s : σ) : AiMoveOutcome σ :=
  if e.turn s = "w" then ⟨s, some notAiTurnMsg, 0, []⟩
  else
    let r := aiMoveLoop e parse oracle 3 s (buildOpenAIPrompt e s) 0 []
    if r.success then ⟨r.finalState, none, r.attempts, r.log⟩
    else ⟨r.finalState, some exhaustedMsg, r.attempts, r.log⟩

/- Request-body shapes of POST /api/move: from/to objects may be absent
   (undefined), and when present their row/col number fields may be
   absent. -/
structure JCoord where
  row : Option Int
  col : Option Int

structure MoveBody where
  fromF : Option JCoord
  toF : Option JCoord

/- src/index.js lines 84-108 (the /api/move handler): missing-field
   guard (JS truthiness of the from/to objects), turn gate, coordinate
   translation, engine move.  Returns the state after the request and
   the 400 error message, if any. -/
def moveHandler {σ : Type} (e : Engine σ) (s : σ) (body : MoveBody) : σ × Option String :=
  match body.fromF, body.toF with
  | none, _ => (s, some missingMsg)
  | some _, none => (s, some missingMsg)
  | some f, some t =>
    if e.turn s ≠ "w" then (s, some notWhiteTurnMsg)
    else
      let fromSquare := coordsToAlgebraic f.row f.col
      let toSquare := coordsToAlgebraic t.row t.col
      match e.move s fromSquare toSquare with
      | none => (s, some illegalMoveMsg)
      | some s2 => (s2, none)

/- One attempt of the elicitation loop fails without touching the
   engine when the oracle returns null, the returned substring does not
   parse, or the parsed pair matches no entry of the legal-move list
   (src/index.js lines 128-133, 139-141, 149-156). -/
def attemptFails {σ : Type} (e : Engine σ) (parse : String → Option (String × String))
    (s : σ) (resp : Option String) : Prop :=
  resp = none
  ∨ ∃ str, resp = some str ∧
      (parse str = none
       ∨ ∃ f t, parse str = some (f, t)
           ∧ ∀ m ∈ e.moves s, ¬(m.fromSq = f ∧ m.toSq = t))

/- The corrective note the source appends for each of the three failure
   kinds of attemptFails. -/
def noteFor (parse : String → Option (String × String)) (resp : Option String) : String :=
  match resp with
  | none => invalidNote
  | some str =>
    match parse str with
    | none => parseNote
    | some (f, t) => illegalNote f t

/- The prompt the loop sends on its k-th oracle call (zero-based) when
   every earlier attempt failed: the base prompt followed by the notes
   of the failed attempts, in order. -/
def promptAt {σ : Type} (e : Engine σ) (parse : String → Option (String × String))
    (oracle : Nat → String → Option String) (s : σ) : Nat → String
  | 0 => buildOpenAIPrompt e s
  | k + 1 =>
    promptAt e parse oracle s k
      ++ noteFor parse (oracle k (promptAt e parse oracle s k))

/- ------------------------------------------------------------------ -/
/- One-step unfolding lemmas for the loop -/
/- ------------------------------------------------------------------ -/

theorem aiMoveLoop_step_null {σ : Type} (e : Engine σ)
    (parse : String → Option (String × String)) (oracle : Nat → String → Option String)
    (n : Nat) (s : σ) (prompt : String) (calls : Nat) (log : List String)
    (hor : oracle calls prompt = none) :
    aiMoveLoop e parse oracle (n + 1) s prompt calls log
      = aiMoveLoop e parse oracle n s (prompt ++ invalidNote) (calls + 1) (log ++ [prompt]) := by
  simp only [aiMoveLoop, hor]

theorem aiMoveLoop_step_parsefail {σ : Type} (e : Engine σ)
    (parse : String → Option (String × String)) (oracle : Nat → String → Option String)
    (n : Nat) (s : σ) (prompt : String) (calls : Nat) (log : List String) (resp : String)
    (hor : oracle calls prompt = some resp) (hp : parse resp = none) :
    aiMoveLoop e parse oracle (n + 1) s prompt calls log
      = aiMoveLoop e parse oracle n s (prompt ++ parseNote) (calls + 1) (log ++ [prompt]) := by
  simp only [aiMoveLoop, hor, hp]

theorem aiMoveLoop_step_notfound {σ : Type} (e : Engine σ)
    (parse : String → Option (String × String)) (oracle : Nat → String → Option String)
    (n : Nat) (s : σ) (prompt : String) (calls : Nat) (log : List String) (resp f t : String)
    (hor : oracle calls prompt = some resp) (hp : parse resp = some (f, t))
    (hone : (e.moves s).any (fun m => m.fromSq == f && m.toSq == t) = false) :
    aiMoveLoop e parse oracle (n + 1) s prompt calls log
      = aiMoveLoop e parse oracle n s (prompt ++ illegalNote f t) (calls + 1) (log ++ [prompt]) := by
  simp only [aiMoveLoop, hor, hp, hone, Bool.false_eq_true, if_false]

theorem aiMoveLoop_step_rejected {σ : Type} (e : Engine σ)
    (parse : String → Option (String × String)) (oracle : Nat → String → Option String)
    (n : Nat) (s : σ) (prompt : String) (calls : Nat) (log : List String) (resp f t : String)
    (hor : oracle calls prompt = some resp) (hp : parse resp = some (f, t))
    (hone : (e.moves s).any (fun m => m.fromSq == f && m.toSq == t) = true)
    (hmv : e.move s f t = none) :
    aiMoveLoop e parse oracle (n + 1) s prompt calls log
      = aiMoveLoop e parse oracle n s prompt (calls + 1) (log ++ [prompt]) := by
  simp only [aiMoveLoop, hor, hp, hone, if_true, hmv]

theorem aiMoveLoop_step_applied {σ : Type} (e : Engine σ)
    (parse : String → Option (String × String)) (oracle : Nat → String → Option String)
    (n : Nat) (s : σ) (prompt : String) (calls : Nat) (log : List String)
    (resp f t : String) (s2 : σ)
    (hor : oracle calls prompt = some resp) (hp : parse resp = some (f, t))
    (hone : (e.moves s).any (fun m => m.fromSq == f && m.toSq == t) = true)
    (hmv : e.move s f t = some s2) :
    aiMoveLoop e parse oracle (n + 1) s prompt calls log
      = ⟨s2, prompt, true, calls + 1, log ++ [prompt]⟩ := by
  simp only [aiMoveLoop, hor, hp, hone, if_true, hmv]

/- A failing attempt makes one oracle call, appends its note to the
   prompt, decrements the budget and leaves the engine state alone. -/
theorem aiMoveLoop_fail_step {σ : Type} (e : Engine σ)
    (parse : String → Option (String × String)) (oracle : Nat → String → Option String)
    (n : Nat) (s : σ) (prompt : String) (calls : Nat) (log : List String)
    (h : attemptFails e parse s (oracle calls prompt)) :
    aiMoveLoop e parse oracle (n + 1) s prompt calls log
      = aiMoveLoop e parse oracle n s (prompt ++ noteFor parse (oracle calls prompt))
          (calls + 1) (log ++ [prompt]) := by
  rcases h with hnull | ⟨str, hstr, hparse | ⟨f, t, hft, hall⟩⟩
  · simp only [aiMoveLoop, noteFor, hnull]
  · simp only [aiMoveLoop, noteFor, hstr, hparse]
  · have hany : (e.moves s).any (fun m => m.fromSq == f && m.toSq == t) = false := by
      rw [List.any_eq_false]
      intro m hm
      have := hall m hm
      simp only [Bool.and_eq_true, beq_iff_eq]
      tauto
    simp only [aiMoveLoop, noteFor, hstr, hft, hany, Bool.false_eq_true, if_false]

/- Whenever the loop still has budget it sends the current prompt as
   its next oracle call: the final call log extends the accumulator
   with that prompt first. -/
theorem aiMoveLoop_log_extends {σ : Type} (e : Engine σ)
    (parse : String → Option (String × String)) (oracle : Nat → String → Option String) :
    ∀ (n : Nat) (s : σ) (prompt : String) (calls : Nat) (log : List String),
      ∃ rest, (aiMoveLoop e parse oracle (n + 1) s prompt calls log).log
        = log ++ prompt :: rest := by
  intro n
  induction n with
  | zero =>
    intro s prompt calls log
    have hz : ∀ (s : σ) (p : String) (c : Nat) (l : List String),
        (aiMoveLoop e parse oracle 0 s p c l).log = l := fun _ _ _ _ => rfl
    rcases hor : oracle calls prompt with _ | resp
    · rw [aiMoveLoop_step_null e parse oracle 0 s prompt calls log hor, hz]
      exact ⟨[], by simp⟩
    · rcases hp : parse resp with _ | ⟨f, t⟩
      · rw [aiMoveLoop_step_parsefail e parse oracle 0 s prompt calls log resp hor hp, hz]
        exact ⟨[], by simp⟩
      · rcases hone : (e.moves s).any (fun m => m.fromSq == f && m.toSq == t) with _ | _
        · rw [aiMoveLoop_step_notfound e parse oracle 0 s prompt calls log resp f t hor hp hone,
            hz]
          exact ⟨[], by simp⟩
        · rcases hmv : e.move s f t with _ | s2
          · rw [aiMoveLoop_step_rejected e parse oracle 0 s prompt calls log resp f t hor hp
              hone hmv, hz]
            exact ⟨[], by simp⟩
          · rw [aiMoveLoop_step_applied e parse oracle 0 s prompt calls log resp f t s2 hor hp
              hone hmv]
            exact ⟨[], by simp⟩
  | succ n ih =>
    intro s prompt calls log
    rcases hor : oracle calls prompt with _ | resp
    · obtain ⟨r, hr⟩ := ih s (prompt ++ invalidNote) (calls + 1) (log ++ [prompt])
      rw [aiMoveLoop_step_null e parse oracle (n + 1) s prompt calls log hor, hr]
      exact ⟨(prompt ++ invalidNote) :: r, by simp⟩
    · rcases hp : parse resp with _ | ⟨f, t⟩
      · obtain ⟨r, hr⟩ := ih s (prompt ++ parseNote) (calls + 1) (log ++ [prompt])
        rw [aiMoveLoop_step_parsefail e parse oracle (n + 1) s prompt calls log resp hor hp, hr]
        exact ⟨(prompt ++ parseNote) :: r, by simp⟩
      · rcases hone : (e.moves s).any (fun m => m.fromSq == f && m.toSq == t) with _ | _
        · obtain ⟨r, hr⟩ := ih s (prompt ++ illegalNote f t) (calls + 1) (log ++ [prompt])
          rw [aiMoveLoop_step_notfound e parse oracle (n + 1) s prompt calls log resp f t hor hp
            hone, hr]
          exact ⟨(prompt ++ illegalNote f t) :: r, by simp⟩
        · rcases hmv : e.move s f t with _ | s2
          · obtain ⟨r, hr⟩ := ih s prompt (calls + 1) (log ++ [prompt])
            rw [aiMoveLoop_step_rejected e parse oracle (n + 1) s prompt calls log resp f t hor
              hp hone hmv, hr]
            exact ⟨prompt :: r, by simp⟩
          · rw [aiMoveLoop_step_applied e parse oracle (n + 1) s prompt calls log resp f t s2
              hor hp hone hmv]
            exact ⟨[], by simp⟩

/- ------------------------------------------------------------------ -/
/- Concrete collaborators used by the witnesses -/
/- ------------------------------------------------------------------ -/

/- A minimal engine with Black to move, no legal moves, rejecting every
   move; the state is a bare Nat so that state preservation is
   observable. -/
def engB : Engine Nat where
  turn := fun _ => "b"
  board := fun _ => []
  fen := fun _ => ""
  history := fun _ => []
  moves := fun _ => []
  move := fun _ _ _ => none

/- The same engine with White to move. -/
def engW : Engine Nat where
  turn := fun _ => "w"
  board := fun _ => []
  fen := fun _ => ""
  history := fun _ => []
  moves := fun _ => []
  move := fun _ _ _ => none

/- An engine with Black to move whose legal list contains e7-e5 but
   whose move application rejects everything (the defensive case of the
   loop). -/
def engRejecting : Engine Nat where
  turn := fun _ => "b"
  board := fun _ => []
  fen := fun _ => ""
  history := fun _ => []
  moves := fun _ => [⟨"b", "e7", "e5"⟩]
  move := fun _ _ _ => none

def oracleNull : Nat → String → Option String := fun _ _ => none

def parseNone : String → Option (String × String) := fun _ => none

def oracleX : Nat → String → Option String := fun _ _ => some "X"

def parseX : String → Option (String × String) := fun str =>
  if str = "X" then some ("e7", "e5") else none

/- ------------------------------------------------------------------ -/
/- Theorems -/
/- ------------------------------------------------------------------ -/

/-- Claim C8: for every (row, col) in [0,7]x[0,7], the translated square
is the two-character string whose file letter is the character code of
a plus col and whose rank digit is 8 minus row; in particular (0,0)
maps to a8, (7,7) to h1, (0,7) to h8, and (7,0) to a1. -/
theorem coordsToAlgebraic_formula :
    (∀ r c : Int, 0 ≤ r → r ≤ 7 → 0 ≤ c → c ≤ 7 →
      (coordsToAlgebraic (some r) (some c)).data
        = [Char.ofNat (97 + c.toNat), Char.ofNat (48 + (8 - r).toNat)])
    ∧ coordsToAlgebraic (some 0) (some 0) = "a8"
    ∧ coordsToAlgebraic (some 7) (some 7) = "h1"
    ∧ coordsToAlgebraic (some 0) (some 7) = "h8"
    ∧ coordsToAlgebraic (some 7) (some 0) = "a1" := by
  refine ⟨?_, by decide, by decide, by decide, by decide⟩
  intro r c hr0 hr7 hc0 hc7
  interval_cases r <;> interval_cases c <;> decide

/-- Witness for C8 at the concrete in-range input (3, 4): the square is
e5, file char 101 and rank char 53. -/
theorem coordsToAlgebraic_formula_witness :
    (coordsToAlgebraic (some 3) (some 4)).data
      = [Char.ofNat (97 + (4 : Int).toNat), Char.ofNat (48 + ((8 : Int) - 3).toNat)] :=
  coordsToAlgebraic_formula.1 3 4 (by decide) (by decide) (by decide) (by decide)

/-- Counterexample to claim C7: the source coordsToAlgebraic has no
range check, so the out-of-range input (8, 0) does not fail with an
OutOfRangeError; it returns the ordinary formula string a0 (which is
not a valid square). -/
theorem coordsToAlgebraic_no_range_check :
    coordsToAlgebraic (some 8) (some 0) = "a0" ∧ isValidSquare "a0" = false := by
  constructor <;> decide

/-- Claim C7 as amended: coordsToAlgebraic never fails; for every
(row, col) inside [0,7]x[0,7] it succeeds deterministically and the
result is a valid algebraic square (out-of-range inputs also return a
string computed by the same formula instead of raising). -/
theorem coordsToAlgebraic_in_range_valid :
    ∀ r c : Int, 0 ≤ r → r ≤ 7 → 0 ≤ c → c ≤ 7 →
      isValidSquare (coordsToAlgebraic (some r) (some c)) = true := by
  intro r c hr0 hr7 hc0 hc7
  interval_cases r <;> interval_cases c <;> decide

/-- Witness for the amended C7 at the concrete input (6, 4): e2 is a
valid square. -/
theorem coordsToAlgebraic_in_range_valid_witness :
    isValidSquare (coordsToAlgebraic (some 6) (some 4)) = true :=
  coordsToAlgebraic_in_range_valid 6 4 (by decide) (by decide) (by decide) (by decide)

/-- Claim C6, evaluated at the failing input of a two-move history: the
source numbers the listed moves with allMoves.length - 8 + index + 1,
which is -5 and -4 here instead of the true move numbers 1 and 2; the
numbering is only correct once at least 8 moves have been played. -/
theorem recentMovesLines_numbering_bug :
    recentMovesLines [⟨"w", "e2", "e4"⟩, ⟨"b", "e7", "e5"⟩]
        = ["-5. White moved e2 -> e4", "-4. Black moved e7 -> e5"]
      ∧ ["-5. White moved e2 -> e4", "-4. Black moved e7 -> e5"]
        ≠ ["1. White moved e2 -> e4", "2. Black moved e7 -> e5"] := by
  constructor <;> decide

/-- Claim C3: when POST /api/ai-move is invoked while the side to move
read from the engine is White, the handler fails immediately with the
not-your-turn 400 response carrying a non-empty message, makes no
oracle call, consumes no retry budget, and leaves the game state
unchanged. -/
theorem ai_move_wrong_turn {σ : Type} (e : Engine σ)
    (parse : String → Option (String × String)) (oracle : Nat → String → Option String)
    (s : σ) (hturn : e.turn s = "w") :
    aiMoveHandler e parse oracle s = ⟨s, some notAiTurnMsg, 0, []⟩ ∧ notAiTurnMsg ≠ "" := by
  constructor
  · simp only [aiMoveHandler, if_pos hturn]
  · decide

/-- Witness for C3: a concrete engine with White to move and state 5. -/
theorem ai_move_wrong_turn_witness :
    aiMoveHandler engW parseNone oracleNull 5 = ⟨5, some notAiTurnMsg, 0, []⟩
      ∧ notAiTurnMsg ≠ "" :=
  ai_move_wrong_turn engW parseNone oracleNull 5 rfl

/-- Claim C1: invoked with Black to move, if every one of the three
attempts fails (oracle null, unparseable, or a pair matching no legal
move), the loop makes exactly 3 attempts, the game state is unchanged,
and the invocation ends in the 400 exhaustion response with a non-empty
message. -/
theorem ai_move_exhaustion {σ : Type} (e : Engine σ)
    (parse : String → Option (String × String)) (oracle : Nat → String → Option String)
    (s : σ) (hturn : e.turn s = "b")
    (h0 : attemptFails e parse s (oracle 0 (promptAt e parse oracle s 0)))
    (h1 : attemptFails e parse s (oracle 1 (promptAt e parse oracle s 1)))
    (h2 : attemptFails e parse s (oracle 2 (promptAt e parse oracle s 2))) :
    (aiMoveHandler e parse oracle s).state = s
    ∧ (aiMoveHandler e parse oracle s).error = some exhaustedMsg
    ∧ exhaustedMsg ≠ ""
    ∧ (aiMoveHandler e parse oracle s).attempts = 3 := by
  have hw : ¬ (e.turn s = "w") := by rw [hturn]; decide
  have hloop : aiMoveLoop e parse oracle 3 s (buildOpenAIPrompt e s) 0 []
      = ⟨s, promptAt e parse oracle s 3, false, 3,
          [promptAt e parse oracle s 0, promptAt e parse oracle s 1,
            promptAt e parse oracle s 2]⟩ := by
    calc aiMoveLoop e parse oracle 3 s (buildOpenAIPrompt e s) 0 []
        = aiMoveLoop e parse oracle 2 s (promptAt e parse oracle s 1) 1
            [promptAt e parse oracle s 0] := by
          simpa [promptAt] using
            aiMoveLoop_fail_step e parse oracle 2 s (promptAt e parse oracle s 0) 0 [] h0
      _ = aiMoveLoop e parse oracle 1 s (promptAt e parse oracle s 2) 2
            [promptAt e parse oracle s 0, promptAt e parse oracle s 1] := by
          simpa [promptAt] using
            aiMoveLoop_fail_step e parse oracle 1 s (promptAt e parse oracle s 1) 1
              [promptAt e parse oracle s 0] h1
      _ = aiMoveLoop e parse oracle 0 s (promptAt e parse oracle s 3) 3
            [promptAt e parse oracle s 0, promptAt e parse oracle s 1,
              promptAt e parse oracle s 2] := by
          simpa [promptAt] using
            aiMoveLoop_fail_step e parse oracle 0 s (promptAt e parse oracle s 2) 2
              [promptAt e parse oracle s 0, promptAt e parse oracle s 1] h2
      _ = ⟨s, promptAt e parse oracle s 3, false, 3,
            [promptAt e parse oracle s 0, promptAt e parse oracle s 1,
              promptAt e parse oracle s 2]⟩ := rfl
  have hh : aiMoveHandler e parse oracle s
      = ⟨s, some exhaustedMsg, 3,
          [promptAt e parse oracle s 0, promptAt e parse oracle s 1,
            promptAt e parse oracle s 2]⟩ := by
    simp only [aiMoveHandler, if_neg hw, hloop, Bool.false_eq_true, if_false]
  rw [hh]
  exact ⟨rfl, rfl, by decide, rfl⟩

/-- Witness for C1: a concrete engine with Black to move and an oracle
that always returns null; every attempt fails by the null case. -/
theorem ai_move_exhaustion_witness :
    (aiMoveHandler engB parseNone oracleNull 7).state = 7
    ∧ (aiMoveHandler engB parseNone oracleNull 7).error = some exhaustedMsg
    ∧ exhaustedMsg ≠ ""
    ∧ (aiMoveHandler engB parseNone oracleNull 7).attempts = 3 :=
  ai_move_exhaustion engB parseNone oracleNull 7 rfl (Or.inl rfl) (Or.inl rfl) (Or.inl rfl)

/-- Claim C2: within one loop invocation, for each attempt k of 2 and 3
(the only retries under the budget of 3), when the earlier attempts
failed, the prompt sent on attempt k is the base prompt followed by the
corrective notes of attempts 1..k-1, appended verbatim in order; the
feedback accumulates and never replaces. -/
theorem ai_move_prompt_cumulative {σ : Type} (e : Engine σ)
    (parse : String → Option (String × String)) (oracle : Nat → String → Option String)
    (s : σ) :
    (attemptFails e parse s (oracle 0 (promptAt e parse oracle s 0)) →
      (aiMoveLoop e parse oracle 3 s (promptAt e parse oracle s 0) 0 []).log[1]?
        = some (promptAt e parse oracle s 1))
    ∧ (attemptFails e parse s (oracle 0 (promptAt e parse oracle s 0)) →
        attemptFails e parse s (oracle 1 (promptAt e parse oracle s 1)) →
      (aiMoveLoop e parse oracle 3 s (promptAt e parse oracle s 0) 0 []).log[2]?
        = some (promptAt e parse oracle s 2))
    ∧ promptAt e parse oracle s 1
        = promptAt e parse oracle s 0 ++ noteFor parse (oracle 0 (promptAt e parse oracle s 0))
    ∧ promptAt e parse oracle s 2
        = promptAt e parse oracle s 0 ++ noteFor parse (oracle 0 (promptAt e parse oracle s 0))
            ++ noteFor parse (oracle 1 (promptAt e parse oracle s 1)) := by
  refine ⟨?_, ?_, by simp [promptAt], by simp [promptAt]⟩
  · intro h0
    have e1 : aiMoveLoop e parse oracle 3 s (promptAt e parse oracle s 0) 0 []
        = aiMoveLoop e parse oracle 2 s (promptAt e parse oracle s 1) 1
            [promptAt e parse oracle s 0] := by
      simpa [promptAt] using
        aiMoveLoop_fail_step e parse oracle 2 s (promptAt e parse oracle s 0) 0 [] h0
    obtain ⟨rest, hr⟩ := aiMoveLoop_log_extends e parse oracle 1 s
      (promptAt e parse oracle s 1) 1 [promptAt e parse oracle s 0]
    rw [e1, hr]
    simp
  · intro h0 h1
    have e1 : aiMoveLoop e parse oracle 3 s (promptAt e parse oracle s 0) 0 []
        = aiMoveLoop e parse oracle 2 s (promptAt e parse oracle s 1) 1
            [promptAt e parse oracle s 0] := by
      simpa [promptAt] using
        aiMoveLoop_fail_step e parse oracle 2 s (promptAt e parse oracle s 0) 0 [] h0
    have e2 : aiMoveLoop e parse oracle 2 s (promptAt e parse oracle s 1) 1
          [promptAt e parse oracle s 0]
        = aiMoveLoop e parse oracle 1 s (promptAt e parse oracle s 2) 2
            [promptAt e parse oracle s 0, promptAt e parse oracle s 1] := by
      simpa [promptAt] using
        aiMoveLoop_fail_step e parse oracle 1 s (promptAt e parse oracle s 1) 1
          [promptAt e parse oracle s 0] h1
    obtain ⟨rest, hr⟩ := aiMoveLoop_log_extends e parse oracle 0 s
      (promptAt e parse oracle s 2) 2 [promptAt e parse oracle s 0, promptAt e parse oracle s 1]
    rw [e1, e2, hr]
    simp

/-- Witness for C2: with the always-null oracle, the prompt of attempt
2 is the base prompt followed by the first corrective note. -/
theorem ai_move_prompt_cumulative_witness :
    (aiMoveLoop engB parseNone oracleNull 3 7
        (promptAt engB parseNone oracleNull 7 0) 0 []).log[1]?
      = some (promptAt engB parseNone oracleNull 7 1) :=
  (ai_move_prompt_cumulative engB parseNone oracleNull 7).1 (Or.inl rfl)

/-- Counterexample to claim C5: when the claimed pair is found in the
legal list but the engine rejects the application, the source appends
no corrective note at all — the prompt sent on the next attempt is the
unchanged previous prompt, not the prompt extended with the
illegal-move note the claim requires. -/
theorem ai_move_found_rejected_counterexample :
    (aiMoveLoop engRejecting parseX oracleX 3 0 "P" 0 []).log[1]? = some "P"
    ∧ ("P" : String) ≠ "P" ++ illegalNote "e7" "e5"
    ∧ ((engRejecting.moves 0).any fun m => m.fromSq == "e7" && m.toSq == "e5") = true
    ∧ engRejecting.move 0 "e7" "e5" = none := by
  refine ⟨by decide, by decide, by decide, rfl⟩

/-- Claim C5 as amended: if the claimed pair matches the legal-move
list but the engine rejects the application, the loop does not crash
and treats the attempt as failed — it makes the call, decrements the
retry budget and continues looping with the engine state and the
prompt unchanged (no corrective note is appended). -/
theorem ai_move_found_rejected_no_note {σ : Type} (e : Engine σ)
    (parse : String → Option (String × String)) (oracle : Nat → String → Option String)
    (n : Nat) (s : σ) (prompt : String) (calls : Nat) (log : List String) (resp f t : String)
    (hor : oracle calls prompt = some resp) (hp : parse resp = some (f, t))
    (hone : (e.moves s).any (fun m => m.fromSq == f && m.toSq == t) = true)
    (hmv : e.move s f t = none) :
    aiMoveLoop e parse oracle (n + 1) s prompt calls log
      = aiMoveLoop e parse oracle n s prompt (calls + 1) (log ++ [prompt]) := by
  simp only [aiMoveLoop, hor, hp, hone, if_true, hmv]

/-- Witness for the amended C5 at the concrete rejecting engine. -/
theorem ai_move_found_rejected_no_note_witness :
    aiMoveLoop engRejecting parseX oracleX (2 + 1) 0 "P" 0 []
      = aiMoveLoop engRejecting parseX oracleX 2 0 "P" (0 + 1) ([] ++ ["P"]) :=
  ai_move_found_rejected_no_note engRejecting parseX oracleX 2 0 "P" 0 [] "X" "e7" "e5"
    rfl (by decide) (by decide) rfl

/- A string starting with the NUL character is never a valid square,
   whatever the rank part is. -/
theorem nulFile_not_square (rank : String) :
    isValidSquare (String.singleton (Char.ofNat 0) ++ rank) = false := by
  have h : (String.singleton (Char.ofNat 0) ++ rank).data = Char.ofNat 0 :: rank.data := by
    simp [String.singleton, String.data_append]
  simp only [isValidSquare, h]
  cases hd : rank.data with
  | nil => rfl
  | cons r rest =>
    cases rest with
    | nil =>
      have hlt : (Char.ofNat 97 ≤ Char.ofNat 0) = False := by simp
      simp [hlt]
    | cons b rest2 => rfl

/- A string whose rank part is the three characters NaN is never a
   valid square: it has four characters. -/
theorem nanRank_not_square (c : Char) :
    isValidSquare (String.singleton c ++ "NaN") = false := by
  have h : (String.singleton c ++ "NaN").data = [c, 'N', 'a', 'N'] := by
    simp only [String.singleton, String.data_append]
    rfl
  simp only [isValidSquare, h]

/- When the row field is absent the translated string ends in NaN and
   is not a valid square. -/
theorem coordsToAlgebraic_row_none (col : Option Int) :
    isValidSquare (coordsToAlgebraic none col) = false := by
  rcases col with _ | c
  · exact nanRank_not_square (Char.ofNat 0)
  · exact nanRank_not_square (Char.ofNat ((97 + c) % 65536).toNat)

/- When the col field is absent the translated string starts with the
   NUL character and is not a valid square. -/
theorem coordsToAlgebraic_col_none (row : Option Int) :
    isValidSquare (coordsToAlgebraic row none) = false := by
  rcases row with _ | r
  · exact nulFile_not_square "NaN"
  · exact nulFile_not_square (toString (8 - r))

/-- Claim C9: every failing POST /api/move request — missing fields,
wrong turn, or an engine-rejected move — produces a 400 response with a
non-empty error string and leaves the game state exactly as before the
request; no failing request partially mutates state. -/
theorem move_failure_atomic {σ : Type} (e : Engine σ) (s : σ) (body : MoveBody) (msg : String)
    (h : (moveHandler e s body).2 = some msg) :
    (moveHandler e s body).1 = s ∧ msg ≠ "" := by
  rcases body with ⟨fB, tB⟩
  rcases fB with _ | f
  · refine ⟨rfl, ?_⟩
    rw [← Option.some.inj h]
    decide
  · rcases tB with _ | t
    · refine ⟨rfl, ?_⟩
      rw [← Option.some.inj h]
      decide
    · by_cases hturn : e.turn s ≠ "w"
      · simp only [moveHandler, if_pos hturn] at h ⊢
        refine ⟨by simp, ?_⟩
        rw [← Option.some.inj h]
        decide
      · rcases hmv : e.move s (coordsToAlgebraic f.row f.col) (coordsToAlgebraic t.row t.col)
          with _ | s2
        · simp only [moveHandler, if_neg hturn, hmv] at h ⊢
          refine ⟨by simp, ?_⟩
          rw [← Option.some.inj h]
          decide
        · simp only [moveHandler, if_neg hturn, hmv] at h
          exact Option.noConfusion h

/-- Witness for C9: the missing-fields failure on a concrete engine
with state 5 leaves the state at 5 and carries a non-empty message. -/
theorem move_failure_atomic_witness :
    (moveHandler engW 5 ⟨none, none⟩).1 = 5 ∧ missingMsg ≠ "" :=
  move_failure_atomic engW 5 ⟨none, none⟩ missingMsg rfl

/-- Claim C10: the missing-field guard only tests that the from and to
values are truthy; a body whose from/to objects are present but lack
row or col (White to move, engine rejecting non-square strings per the
chess.js boundary contract) passes the guard, is translated to a
string that is not a valid square, and draws the Illegal move 400
response with the state unchanged, not the missing-fields error. -/
theorem move_missing_rowcol {σ : Type} (e : Engine σ) (s : σ) (fc tc : JCoord)
    (hw : e.turn s = "w")
    (hrej : ∀ a b : String, isValidSquare a = false → e.move s a b = none)
    (hf : fc.row = none ∨ fc.col = none) :
    moveHandler e s ⟨some fc, some tc⟩ = (s, some illegalMoveMsg)
      ∧ isValidSquare (coordsToAlgebraic fc.row fc.col) = false
      ∧ illegalMoveMsg ≠ missingMsg := by
  have hinv : isValidSquare (coordsToAlgebraic fc.row fc.col) = false := by
    rcases hf with h | h
    · rw [h]; exact coordsToAlgebraic_row_none fc.col
    · rw [h]; exact coordsToAlgebraic_col_none fc.row
  refine ⟨?_, hinv, by decide⟩
  simp only [moveHandler]
  rw [if_neg (show ¬ (e.turn s ≠ "w") from fun hne => hne hw)]
  rw [hrej (coordsToAlgebraic fc.row fc.col) (coordsToAlgebraic tc.row tc.col) hinv]

/-- Witness for C10: the concrete body with empty from/to objects on an
engine with White to move that rejects every move string. -/
theorem move_missing_rowcol_witness :
    moveHandler engW 4 ⟨some ⟨none, none⟩, some ⟨none, none⟩⟩ = (4, some illegalMoveMsg)
      ∧ isValidSquare (coordsToAlgebraic none none) = false
      ∧ illegalMoveMsg ≠ missingMsg :=
  move_missing_rowcol engW 4 ⟨none, none⟩ ⟨none, none⟩ rfl (fun _ _ _ => rfl) (Or.inl rfl)

/- Scanning a text of the shape m ++ close-brace ++ b with no close
   brace in m collects exactly m and the first close brace. -/
theorem takeThroughClose_closed (m b : List Char) (hm : '\x7d' ∉ m) :
    takeThroughClose (m ++ '\x7d' :: b) = some (m ++ ['\x7d']) := by
  induction m with
  | nil => simp [takeThroughClose]
  | cons c m ih =>
    have hc : c ≠ '\x7d' := fun hc => hm (hc ▸ List.mem_cons_self c m)
    have hm2 : '\x7d' ∉ m := fun hx => hm (List.mem_cons_of_mem c hx)
    simp [takeThroughClose, if_neg hc, ih hm2]

/- If the close-brace scan succeeds, the text contains a close brace. -/
theorem takeThroughClose_some (l r : List Char) (h : takeThroughClose l = some r) :
    ∃ m b, l = m ++ '\x7d' :: b := by
  induction l generalizing r with
  | nil => exact absurd h (by simp [takeThroughClose])
  | cons c rest ih =>
    by_cases hc : c = '\x7d'
    · exact ⟨[], rest, by rw [hc]; rfl⟩
    · simp only [takeThroughClose, if_neg hc] at h
      rcases hmap : takeThroughClose rest with _ | r2
      · rw [hmap] at h; exact absurd h (by simp)
      · obtain ⟨m, b, hmb⟩ := ih r2 hmap
        exact ⟨c :: m, b, by rw [hmb]; rfl⟩

/- On a text decomposed around its first opening brace and the earliest
   following closing brace, the match returns exactly that span. -/
theorem firstBraceMatch_found (a m b : List Char) (ha : '\x7b' ∉ a) (hm : '\x7d' ∉ m) :
    firstBraceMatch (a ++ '\x7b' :: (m ++ '\x7d' :: b)) = some ('\x7b' :: (m ++ ['\x7d'])) := by
  induction a with
  | nil =>
    simp [firstBraceMatch, takeThroughClose_closed m b hm]
  | cons c a ih =>
    have hc : c ≠ '\x7b' := fun hc => ha (hc ▸ List.mem_cons_self c a)
    have ha2 : '\x7b' ∉ a := fun hx => ha (List.mem_cons_of_mem c hx)
    simpa [firstBraceMatch, if_neg hc] using ih ha2

/- When no open brace followed by a close brace occurs in the text,
   the match fails. -/
theorem firstBraceMatch_nomatch (l : List Char)
    (hno : ¬ ∃ a m b : List Char, l = a ++ '\x7b' :: (m ++ '\x7d' :: b)) :
    firstBraceMatch l = none := by
  induction l with
  | nil => rfl
  | cons c rest ih =>
    by_cases hc : c = '\x7b'
    · simp only [firstBraceMatch, if_pos hc]
      rcases htc : takeThroughClose rest with _ | r
      · rfl
      · obtain ⟨m, b, hmb⟩ := takeThroughClose_some rest r htc
        exact absurd ⟨[], m, b, by rw [hmb, hc]; rfl⟩ hno
    · simp only [firstBraceMatch, if_neg hc]
      refine ih ?_
      rintro ⟨a, m, b, hab⟩
      exact hno ⟨c :: a, m, b, by rw [hab]; rfl⟩

/-- Claim C4: on any transport or service failure the oracle client
returns null and never raises; on success it returns, verbatim and
unparsed, the substring of the (trimmed) response text running from
the first opening brace to the earliest following closing brace, and
returns null when no such substring exists. -/
theorem callOpenAiForMove_contract :
    callOpenAiForMove none = none
    ∧ (∀ raw : String, ∀ a m b : List Char,
        (jsTrim raw).data = a ++ '\x7b' :: (m ++ '\x7d' :: b) →
        '\x7b' ∉ a → '\x7d' ∉ m →
        callOpenAiForMove (some raw) = some (String.mk ('\x7b' :: (m ++ ['\x7d']))))
    ∧ (∀ raw : String,
        (¬ ∃ a m b : List Char, (jsTrim raw).data = a ++ '\x7b' :: (m ++ '\x7d' :: b)) →
        callOpenAiForMove (some raw) = none) := by
  refine ⟨rfl, ?_, ?_⟩
  · intro raw a m b hdec ha hm
    simp [callOpenAiForMove, extractJsonSubstring, hdec, firstBraceMatch_found a m b ha hm]
  · intro raw hno
    simp [callOpenAiForMove, extractJsonSubstring,
      firstBraceMatch_nomatch (jsTrim raw).data hno]

/-- Witness for C4: a concrete raw response with surrounding noise
yields exactly its first brace-to-brace span. -/
theorem callOpenAiForMove_contract_witness :
    callOpenAiForMove (some " A\x7bab\x7dy ") = some "\x7bab\x7d" := by
  have h := callOpenAiForMove_contract.2.1 " A\x7bab\x7dy " ['A'] ['a', 'b'] ['y']
    (by decide) (by decide) (by decide)
  have h2 : String.mk ('\x7b' :: (['a', 'b'] ++ ['\x7d'])) = "\x7bab\x7d" := by decide
  rw [h2] at h
  exact h

end ChessApp
